import Mathlib

/-
Verification development for the media ingestion pipeline of the `aivid`
backend (`src/backend/storage.py` together with the upload route in
`src/backend/routes/media.py`).

The Python code is shallowly embedded: pure helpers become Lean functions,
the filesystem side effects of the upload path become explicit state passing
over a directory-listing value, and the external tools (ffprobe, ffmpeg,
PIL) are passed in as outcome parameters, since their behaviour is an input
to the code under verification.
-/

set_option autoImplicit false

namespace Aivid

/-! ## Python string primitives used by `storage.py` -/

/-- Index of the last occurrence of `c` in `l` (`str.rfind` restricted to a
single character; `none` plays the role of Python's `-1`). -/
def lastIdxOf (c : Char) : List Char → Option Nat
  | [] => none
  | a :: rest =>
    match lastIdxOf c rest with
    | some i => some (i + 1)
    | none => if a = c then some 0 else none

/-- The extension part of `os.path.splitext` (posix, `sep = '/'`,
`extsep = '.'`), translated from `genericpath._splitext`: the extension
starts at the last dot, provided that dot lies after the last slash and the
base name in between is not made up entirely of dots (a leading-dot file
such as `".mp4"` has no extension). -/
def splitextExtL (l : List Char) : List Char :=
  match lastIdxOf '.' l with
  | none => []
  | some d =>
    let s : Nat :=
      match lastIdxOf '/' l with
      | none => 0
      | some k => k + 1
    -- `dotIndex > sepIndex` in the Python source (`sepIndex = -1` when absent)
    if s ≤ d then
      -- `while filenameIndex < dotIndex: if p[filenameIndex] != extsep: return split`
      if (List.range (d - s)).any (fun j => l.getD (s + j) '.' ≠ '.') then
        l.drop d
      else []
    else []

/-- `os.path.splitext(filename)[1]`. -/
def pyExt (s : String) : String := ⟨splitextExtL s.data⟩

/-- `str.lower()` (character-wise; the extensions the code compares against
are ASCII, where Python's `lower` and `Char.toLower` agree). -/
def pyLower (s : String) : String := ⟨s.data.map Char.toLower⟩

/-- `os.path.join` for posix paths, two components. -/
def posixJoin (a b : String) : String :=
  if b.startsWith "/" then b
  else if a = "" ∨ a.endsWith "/" then a ++ b
  else a ++ "/" ++ b

/-! ## Configuration constants (`storage.py`, lines 11-22) -/

/-- `os.getenv("UPLOAD_DIR", "./uploads")`, modelled at its default. -/
def UPLOAD_DIR : String := "./uploads"

/-- `os.getenv("THUMBNAIL_DIR", "./thumbnails")`, modelled at its default. -/
def THUMBNAIL_DIR : String := "./thumbnails"

/-- `MAX_FILE_SIZE = 100 * 1024 * 1024`. -/
def MAX_FILE_SIZE : Nat := 100 * 1024 * 1024

def SUPPORTED_VIDEO_TYPES : List String := [".mp4", ".mov", ".avi", ".mkv", ".webm"]

def SUPPORTED_AUDIO_TYPES : List String := [".mp3", ".wav", ".aac", ".m4a", ".ogg"]

def SUPPORTED_IMAGE_TYPES : List String := [".jpg", ".jpeg", ".png", ".gif", ".webp"]

/-! ## Classifier and validator (`get_file_type`, `validate_file`) -/

/-- The typed failures the pipeline can surface.  In the source these are
`HTTPException(400, ...)` for the two validation failures and an uncaught
`OSError` for a failed write (the route converts any exception into an
HTTP 500 response). -/
inductive UploadError where
  | unsupportedType (ext : String)
  | tooLarge
  | ioError
deriving DecidableEq, Repr

/-- `get_file_type` (storage.py lines 24-38): classify by lower-cased
extension against the three fixed sets, raising for anything else.  A pure
function of the filename. -/
def get_file_type (filename : String) : Except UploadError String :=
  let ext := pyLower (pyExt filename)
  if ext ∈ SUPPORTED_VIDEO_TYPES then .ok "video"
  else if ext ∈ SUPPORTED_AUDIO_TYPES then .ok "audio"
  else if ext ∈ SUPPORTED_IMAGE_TYPES then .ok "image"
  else .error (.unsupportedType ext)

/-- `validate_file` (storage.py lines 40-49): size ceiling first, then the
type check by delegation to `get_file_type`. -/
def validate_file (size : Nat) (filename : String) : Except UploadError Unit :=
  if MAX_FILE_SIZE < size then .error .tooLarge
  else
    match get_file_type filename with
    | .error e => .error e
    | .ok _ => .ok ()

/-! ## Probe output model and Python numeric coercions

`ffmpeg.probe` returns parsed JSON: a list of stream dicts plus a `format`
dict.  The values the code reads are JSON numbers or strings. -/

/-- A JSON scalar as the probe delivers it. -/
inductive PyVal where
  | vint (n : Int)
  | vstr (s : String)
deriving DecidableEq, Repr

/-- A Python dict restricted to the string-keyed scalar entries the code
reads. -/
abbrev Dict := List (String × PyVal)

/-- `d.get(k, default)`. -/
def dictGet (d : Dict) (k : String) (dflt : PyVal) : PyVal :=
  match d.find? (fun kv => kv.1 == k) with
  | some kv => kv.2
  | none => dflt

/-- `d[k]` as an `Option` (`none` is a `KeyError`). -/
def dictAt (d : Dict) (k : String) : Option PyVal :=
  (d.find? (fun kv => kv.1 == k)).map (fun kv => kv.2)

/-- Digit-string value (helper for the numeric coercions). -/
def natOfDigits (l : List Char) : Nat :=
  l.foldl (fun a c => a * 10 + (c.toNat - 48)) 0

/-- A non-empty all-digit string, as a number. -/
def digitsToNat? (l : List Char) : Option Nat :=
  if l ≠ [] ∧ l.all Char.isDigit then some (natOfDigits l) else none

/-- Python `int(str)` on decimal literals with an optional sign; any other
string raises `ValueError` (here `none`). -/
def pyIntOfString (l : List Char) : Option Int :=
  match l with
  | '-' :: rest => (digitsToNat? rest).map (fun n => -(n : Int))
  | '+' :: rest => (digitsToNat? rest).map (fun n => (n : Int))
  | _ => (digitsToNat? l).map (fun n => (n : Int))

/-- Python `int(x)` on the values the probe can deliver. -/
def pyToInt : PyVal → Option Int
  | .vint n => some n
  | .vstr s => pyIntOfString s.data

/-- Python `float(str)` on decimal literals `[sign] digits [. digits]`,
modelled exactly in ℚ (binary floats approximate these values; no claim
here depends on that rounding).  Any other string raises `ValueError`. -/
def pyFloatOfString (l : List Char) : Option ℚ :=
  let signed : List Char → Option ℚ := fun m =>
    match m.findIdx? (fun c => c == '.') with
    | none => (digitsToNat? m).map (fun n => (n : ℚ))
    | some i =>
      let a := m.take i
      let b := m.drop (i + 1)
      if (a ≠ [] ∨ b ≠ []) ∧ a.all Char.isDigit ∧ b.all Char.isDigit then
        some ((natOfDigits a : ℚ) + (natOfDigits b : ℚ) / ((10 : ℚ) ^ b.length))
      else none
  match l with
  | '-' :: rest => (signed rest).map (fun q => -q)
  | '+' :: rest => signed rest
  | _ => signed l

/-- Python `float(x)` on the values the probe can deliver. -/
def pyToFloat : PyVal → Option ℚ
  | .vint n => some (n : ℚ)
  | .vstr s => pyFloatOfString s.data

/-- Python `eval` restricted to the arithmetic fragment
`<digits>`, `<digits>+<digits>`, `<digits>-<digits>`, `<digits>*<digits>`,
`<digits>/<digits>` actually reachable from ffprobe-style rate strings,
with `/` as true division (exact in ℚ) and division by zero raising
(`none`).  On strings outside this fragment the real `eval` executes
arbitrary Python rather than failing closed — that unbounded behaviour is
exactly what claim C1 is about and is not representable here. -/
def pyEvalArith (s : String) : Option ℚ :=
  let l := s.data
  match l.findIdx? (fun c => c == '+' || c == '-' || c == '*' || c == '/') with
  | none => (digitsToNat? l).map (fun n => (n : ℚ))
  | some i =>
    let a := l.take i
    let op := l.getD i ' '
    let b := l.drop (i + 1)
    match digitsToNat? a, digitsToNat? b with
    | some x, some y =>
      if op = '+' then some ((x : ℚ) + (y : ℚ))
      else if op = '-' then some ((x : ℚ) - (y : ℚ))
      else if op = '*' then some ((x : ℚ) * (y : ℚ))
      else if y = 0 then none
      else some ((x : ℚ) / (y : ℚ))
    | _, _ => none

/-- `eval` applied to a probe value: `eval` only accepts strings (a
non-string argument raises `TypeError`). -/
def evalFrameRate : PyVal → Option ℚ
  | .vstr s => pyEvalArith s
  | .vint _ => none

/-- Modelled from the spec: the strict rational-number parser
`"<int>/<int>"` that §9 prescribes in place of `eval`; anything not of that
form (or with a zero denominator) fails closed (`none`), to be replaced by
a default rate.  This definition follows the spec's words and exists only
to be compared against the source's behaviour. -/
def spec_parse_frame_rate (s : String) : Option ℚ :=
  let l := s.data
  match l.findIdx? (fun c => c == '/') with
  | none => none
  | some i =>
    match digitsToNat? (l.take i), digitsToNat? (l.drop (i + 1)) with
    | some x, some y => if y = 0 then none else some ((x : ℚ) / (y : ℚ))
    | _, _ => none

/-! ## Metadata extraction (`extract_*_metadata`) -/

/-- A value in the metadata dict the extractors build. -/
inductive MetaVal where
  | mint (n : Int)
  | mrat (q : ℚ)
  | mval (v : PyVal)
deriving DecidableEq, Repr

/-- The metadata dict returned to the caller. -/
abbrev Metadata := List (String × MetaVal)

/-- Lookup in a metadata dict. -/
def mdGet (m : Metadata) (k : String) : Option MetaVal :=
  (m.find? (fun kv => kv.1 == k)).map (fun kv => kv.2)

/-- The parsed JSON of one `ffmpeg.probe` call. -/
structure ProbeOutput where
  streams : List Dict
  format : Dict
deriving Repr

/-- `next((s for s in streams if s['codec_type'] == kind), None)`: first
stream of the requested codec type; `.error ()` is the `KeyError` raised
when a stream lacks `codec_type`. -/
def findStream (kind : String) : List Dict → Except Unit (Option Dict)
  | [] => .ok none
  | s :: rest =>
    match dictAt s "codec_type" with
    | none => .error ()
    | some v => if v = .vstr kind then .ok (some s) else findStream kind rest

/-- The body of the `try` block of `extract_video_metadata` (storage.py
lines 81-92).  The probe outcome is an input: `.error ()` is
`ffmpeg.probe` raising on an unreadable file.  `none` means some statement
in the block raised, which the enclosing handler turns into `{}`. -/
def extract_video_metadata_try (probe : Except Unit ProbeOutput) : Option Metadata :=
  match probe with
  | .error _ => none
  | .ok p =>
    match findStream "video" p.streams with
    | .error _ => none
    | .ok none => some []
    | .ok (some vs) => do
      let w ← pyToInt (dictGet vs "width" (.vint 0))
      let h ← pyToInt (dictGet vs "height" (.vint 0))
      let d ← pyToFloat (dictGet p.format "duration" (.vint 0))
      let fps ← evalFrameRate (dictGet vs "r_frame_rate" (.vstr "30/1"))
      some [("width", .mint w), ("height", .mint h), ("duration", .mrat d),
            ("fps", .mrat fps), ("codec", .mval (dictGet vs "codec_name" (.vstr "unknown")))]

/-- `extract_video_metadata` (storage.py lines 79-96): any exception in the
`try` block is caught, printed, and degraded to `{}`. -/
def extract_video_metadata (probe : Except Unit ProbeOutput) : Metadata :=
  match extract_video_metadata_try probe with
  | some m => m
  | none => []

/-- The body of the `try` block of `extract_audio_metadata` (storage.py
lines 100-110). -/
def extract_audio_metadata_try (probe : Except Unit ProbeOutput) : Option Metadata :=
  match probe with
  | .error _ => none
  | .ok p =>
    match findStream "audio" p.streams with
    | .error _ => none
    | .ok none => some []
    | .ok (some as_) => do
      let d ← pyToFloat (dictGet p.format "duration" (.vint 0))
      let sr ← pyToInt (dictGet as_ "sample_rate" (.vint 0))
      let ch ← pyToInt (dictGet as_ "channels" (.vint 0))
      some [("duration", .mrat d), ("codec", .mval (dictGet as_ "codec_name" (.vstr "unknown"))),
            ("sample_rate", .mint sr), ("channels", .mint ch)]

/-- `extract_audio_metadata` (storage.py lines 98-114). -/
def extract_audio_metadata (probe : Except Unit ProbeOutput) : Metadata :=
  match extract_audio_metadata_try probe with
  | some m => m
  | none => []

/-- The result of `PIL.Image.open` on a readable image. -/
structure ImageInfo where
  width : Nat
  height : Nat
  fmt : String
deriving Repr

/-- `extract_image_metadata` (storage.py lines 116-128): the open outcome is
an input; a failed decode degrades to `{}`. -/
def extract_image_metadata (img : Except Unit ImageInfo) : Metadata :=
  match img with
  | .error _ => []
  | .ok i => [("width", .mint (i.width : Int)), ("height", .mint (i.height : Int)),
              ("format", .mval (.vstr i.fmt))]

/-! ## Thumbnail generation (`generate_thumbnail`) -/

/-- `Image.thumbnail`'s `round_aspect(number, key)`:
`max(min(math.floor(number), math.ceil(number), key=key), 1)` (Python's
`min` keeps the first argument on a key tie). -/
def pil_round_aspect (q : ℚ) (key : ℤ → ℚ) : ℤ :=
  max (if key ⌊q⌋ ≤ key ⌈q⌉ then ⌊q⌋ else ⌈q⌉) 1

/-- The dimensions computed by `PIL.Image.thumbnail((bw, bh))` on a `w×h`
image, translated from PIL's `preserve_aspect_ratio` with its float
arithmetic carried out exactly in ℚ: unchanged when the image already fits,
otherwise an aspect-preserving shrink with the rounding PIL uses. -/
def pil_thumbnail (w h bw bh : Nat) : Nat × Nat :=
  if bw ≥ w ∧ bh ≥ h then (w, h)
  else
    let aspect : ℚ := (w : ℚ) / (h : ℚ)
    if (bw : ℚ) / (bh : ℚ) ≥ aspect then
      ((pil_round_aspect ((bh : ℚ) * aspect)
          (fun n => |aspect - (n : ℚ) / (bh : ℚ)|)).toNat, bh)
    else
      (bw, (pil_round_aspect ((bw : ℚ) / aspect)
          (fun n => if n = 0 then 0 else |aspect - (bw : ℚ) / (n : ℚ)|)).toNat)

/-- Dimensions of the frame written by the ffmpeg invocation in
`generate_thumbnail`: the `s='320x240'` output option scales the frame to
exactly the requested target size (the spec's §6 frame-extraction facility
writes the frame "at a given target size"), with no aspect handling. -/
def video_thumb_dims : Nat × Nat := (320, 240)

/-- Dimensions of the JPEG written by the PIL branch of
`generate_thumbnail`: `img.thumbnail((320, 240))`. -/
def image_thumb_dims (w h : Nat) : Nat × Nat := pil_thumbnail w h 320 240

/-- Outcomes of the external tools for one ingestion, passed to the
embedded functions as the environment they run against. -/
structure MediaEnv where
  /-- outcome of `ffmpeg.probe` on the stored file -/
  probe : Except Unit ProbeOutput
  /-- outcome of `PIL.Image.open` on the stored file -/
  image : Except Unit ImageInfo
  /-- whether the ffmpeg frame-extraction run completes -/
  ffmpegRun : Bool
  /-- whether PIL can re-encode and save the thumbnail -/
  imageSave : Bool

/-- `generate_thumbnail` (storage.py lines 130-157): video goes through
ffmpeg (`ss=1`, `vframes=1`, `s='320x240'`, written as JPEG via the `.jpg`
suffix), image through PIL (`img.thumbnail((320, 240))`, saved as JPEG),
audio produces no thumbnail, and any exception is caught and degraded to
`None`.  The result also records the written thumbnail's dimensions. -/
def generate_thumbnail (file_type : String) (tok : String) (env : MediaEnv) :
    Option (String × Nat × Nat) :=
  let thumbnail_path := posixJoin THUMBNAIL_DIR (tok ++ ".jpg")
  if file_type = "video" then
    if env.ffmpegRun then
      some (thumbnail_path, video_thumb_dims.1, video_thumb_dims.2)
    else none
  else if file_type = "image" then
    match env.image with
    | .error _ => none
    | .ok img =>
      if env.imageSave then
        some (thumbnail_path, (image_thumb_dims img.width img.height).1,
              (image_thumb_dims img.width img.height).2)
      else none
  else none

/-! ## Upload orchestration (`upload_file_to_storage`, route `upload_media_file`) -/

/-- The original-asset root as a directory listing: file name (relative to
`UPLOAD_DIR`) and content. -/
structure FS where
  uploads : List (String × List Nat)
deriving DecidableEq, Repr

/-- The caller's byte source: either the whole content streams through
`shutil.copyfileobj`, or the copy raises after some bytes were already
written (disk full, broken stream, ...). -/
inductive ByteStream where
  | whole (content : List Nat)
  | failsAfter (written : List Nat)

/-- One `UploadFile` argument: declared filename, declared size, byte
source. -/
structure UploadFileArg where
  filename : String
  size : Nat
  stream : ByteStream

/-- `f"{uuid.uuid4()}{file_ext}"` with the freshly drawn token abstracted
as an argument. -/
def unique_filename (tok : String) (filename : String) : String :=
  tok ++ pyLower (pyExt filename)

/-- `upload_file_to_storage` (storage.py lines 51-77), with the filesystem
threaded explicitly: validate, build the unique name, write the bytes
(`with open(...): shutil.copyfileobj(...)` — on a mid-copy exception the
partially written file stays on disk and the raw error propagates, there is
no `try`/cleanup around the copy), classify again, extract metadata. -/
def upload_file_to_storage (fs : FS) (file : UploadFileArg) (tok : String)
    (env : MediaEnv) : Except UploadError (String × String × Metadata) × FS :=
  match validate_file file.size file.filename with
  | .error e => (.error e, fs)
  | .ok _ =>
    let uname := unique_filename tok file.filename
    let file_path := posixJoin UPLOAD_DIR uname
    match file.stream with
    | .failsAfter written =>
      (.error .ioError, ⟨fs.uploads ++ [(uname, written)]⟩)
    | .whole content =>
      let fs2 : FS := ⟨fs.uploads ++ [(uname, content)]⟩
      match get_file_type file.filename with
      | .error e => (.error e, fs2)
      | .ok ty =>
        let md :=
          if ty = "video" then extract_video_metadata env.probe
          else if ty = "audio" then extract_audio_metadata env.probe
          else if ty = "image" then extract_image_metadata env.image
          else []
        (.ok (file_path, ty, md), fs2)

/-- The ingestion record the route persists (routes/media.py lines 23-49):
stored path, media kind, metadata, optional thumbnail (path and written
dimensions). -/
structure IngestRecord where
  file_path : String
  file_type : String
  metadata : Metadata
  thumbnail : Option (String × Nat × Nat)

/-- The ingestion pipeline of the `/media/upload` route (routes/media.py
lines 21-49): storage upload then thumbnail generation.  Any error
propagates (the route's `except` turns it into an HTTP 500 response; the
typed value is kept here). -/
def upload_media_file (fs : FS) (file : UploadFileArg) (tok ttok : String)
    (env : MediaEnv) : Except UploadError IngestRecord × FS :=
  match upload_file_to_storage fs file tok env with
  | (.error e, fs2) => (.error e, fs2)
  | (.ok (p, ty, md), fs2) =>
    (.ok ⟨p, ty, md, generate_thumbnail ty ttok env⟩, fs2)

/-! ## Shared helper lemmas -/

/-- A concrete environment in which every external tool fails. -/
def envAllFail : MediaEnv := ⟨.error (), .error (), false, false⟩

/-- Validation succeeding forces classification to succeed. -/
theorem validate_ok_classify (s : Nat) (f : String)
    (h : validate_file s f = .ok ()) : ∃ ty, get_file_type f = .ok ty := by
  unfold validate_file at h
  by_cases hs : MAX_FILE_SIZE < s
  · rw [if_pos hs] at h
    exact absurd h (by simp)
  · rw [if_neg hs] at h
    cases hg : get_file_type f with
    | error e => rw [hg] at h; exact absurd h (by simp)
    | ok ty => exact ⟨ty, rfl⟩

/-- The classifier only ever returns one of the three media kinds. -/
theorem classify_ok_cases (f : String) (ty : String)
    (h : get_file_type f = .ok ty) :
    ty = "video" ∨ ty = "audio" ∨ ty = "image" := by
  simp only [get_file_type] at h
  split_ifs at h
  · exact Or.inl (Except.ok.inj h).symm
  · exact Or.inr (Or.inl (Except.ok.inj h).symm)
  · exact Or.inr (Or.inr (Except.ok.inj h).symm)

/-! ## Claims about the classifier and validator -/

/-- C8: for every filename whose lower-cased extension is in the fixed
video, audio or image set, `get_file_type` returns the corresponding kind,
and for every other filename it fails with the unsupported-type error,
never a default kind.  (It is a plain function of the filename, so purity
holds by construction.) -/
theorem classify_fixed_sets (f : String) :
    (pyLower (pyExt f) ∈ SUPPORTED_VIDEO_TYPES → get_file_type f = .ok "video") ∧
    (pyLower (pyExt f) ∈ SUPPORTED_AUDIO_TYPES → get_file_type f = .ok "audio") ∧
    (pyLower (pyExt f) ∈ SUPPORTED_IMAGE_TYPES → get_file_type f = .ok "image") ∧
    (pyLower (pyExt f) ∉ SUPPORTED_VIDEO_TYPES →
      pyLower (pyExt f) ∉ SUPPORTED_AUDIO_TYPES →
      pyLower (pyExt f) ∉ SUPPORTED_IMAGE_TYPES →
      get_file_type f = .error (.unsupportedType (pyLower (pyExt f)))) := by
  refine ⟨fun h => ?_, fun h => ?_, fun h => ?_, fun h1 h2 h3 => ?_⟩
  · simp [get_file_type, h]
  · have hv : pyLower (pyExt f) ∉ SUPPORTED_VIDEO_TYPES := by
      simp only [SUPPORTED_AUDIO_TYPES, List.mem_cons, List.not_mem_nil, or_false] at h
      rcases h with h | h | h | h | h <;> rw [h] <;> decide
    simp [get_file_type, h, hv]
  · have hv : pyLower (pyExt f) ∉ SUPPORTED_VIDEO_TYPES ∧
        pyLower (pyExt f) ∉ SUPPORTED_AUDIO_TYPES := by
      simp only [SUPPORTED_IMAGE_TYPES, List.mem_cons, List.not_mem_nil, or_false] at h
      rcases h with h | h | h | h | h <;> rw [h] <;> exact ⟨by decide, by decide⟩
    simp [get_file_type, h, hv.1, hv.2]
  · simp [get_file_type, h1, h2, h3]

/-- C8 witness at concrete filenames. -/
theorem classify_fixed_sets_witness :
    get_file_type "A.MP4" = .ok "video" ∧
    get_file_type "x.flac" = .error (.unsupportedType ".flac") := by
  constructor
  · exact (classify_fixed_sets "A.MP4").1 (by decide)
  · exact (classify_fixed_sets "x.flac").2.2.2 (by decide) (by decide) (by decide)

/-- C9: any declared size above the 104857600-byte ceiling is rejected with
the too-large error before the extension is even looked at. -/
theorem oversize_rejected_tooLarge (size : Nat) (f : String)
    (h : MAX_FILE_SIZE < size) :
    validate_file size f = .error .tooLarge ∧ MAX_FILE_SIZE = 104857600 := by
  exact ⟨by simp [validate_file, h], rfl⟩

/-- C9 witness: one byte over the ceiling, with an unrecognised extension. -/
theorem oversize_rejected_tooLarge_witness :
    validate_file 104857601 "nofile" = .error .tooLarge ∧ MAX_FILE_SIZE = 104857600 :=
  oversize_rejected_tooLarge 104857601 "nofile" (by decide)

/-- C10: a filename whose extracted extension is empty — including the
extensionless `"video"` and the dot-led `".mp4"`, whose leading dot belongs
to the base name — is always rejected with the unsupported-type error. -/
theorem empty_extension_unsupported (f : String) (h : pyExt f = "") :
    get_file_type f = .error (.unsupportedType "") ∧
    pyExt "video" = "" ∧ pyExt ".mp4" = "" := by
  refine ⟨?_, by decide, by decide⟩
  have h2 : pyLower (pyExt f) = "" := by rw [h]; decide
  simp only [get_file_type, h2]
  rfl

/-- C10 witness at the dot-led name. -/
theorem empty_extension_unsupported_witness :
    get_file_type ".mp4" = .error (.unsupportedType "") ∧
    pyExt "video" = "" ∧ pyExt ".mp4" = "" :=
  empty_extension_unsupported ".mp4" (by decide)

/-! ## Claims about the upload orchestration -/

/-- C7: a validation failure (of either kind) surfaces before any byte is
written — the storage state returned with the error is exactly the state
passed in, for both the storage layer and the whole route pipeline. -/
theorem validation_precedes_write (fs : FS) (file : UploadFileArg)
    (tok ttok : String) (env : MediaEnv) (e : UploadError)
    (h : validate_file file.size file.filename = .error e) :
    upload_file_to_storage fs file tok env = (.error e, fs) ∧
    upload_media_file fs file tok ttok env = (.error e, fs) := by
  have h1 : upload_file_to_storage fs file tok env = (.error e, fs) := by
    unfold upload_file_to_storage
    rw [h]
  refine ⟨h1, ?_⟩
  unfold upload_media_file
  rw [h1]

/-- C7 witness: an unsupported extension and an oversized file, both at an
untouched filesystem. -/
theorem validation_precedes_write_witness :
    upload_file_to_storage ⟨[]⟩ ⟨"x.exe", 1, .whole [0]⟩ "t" envAllFail =
      (.error (.unsupportedType ".exe"), ⟨[]⟩) ∧
    upload_media_file ⟨[]⟩ ⟨"big.mp4", 104857601, .whole [0]⟩ "t" "u" envAllFail =
      (.error .tooLarge, ⟨[]⟩) :=
  ⟨(validation_precedes_write ⟨[]⟩ ⟨"x.exe", 1, .whole [0]⟩ "t" "u" envAllFail
      (.unsupportedType ".exe") rfl).1,
   (validation_precedes_write ⟨[]⟩ ⟨"big.mp4", 104857601, .whole [0]⟩ "t" "u" envAllFail
      .tooLarge rfl).2⟩

/-- C2 (code behaviour at the failing input): when the stream copy raises
after one byte was written, the call surfaces the raw I/O error and the
partially written file is left behind in the original-asset root — the
residual listing is not empty. -/
theorem midcopy_failure_leaves_residual_file :
    upload_file_to_storage ⟨[]⟩ ⟨"a.mp4", 3, .failsAfter [7]⟩ "tok" envAllFail =
      (.error .ioError, ⟨[("tok.mp4", [7])]⟩) ∧
    (upload_file_to_storage ⟨[]⟩ ⟨"a.mp4", 3, .failsAfter [7]⟩ "tok" envAllFail).2.uploads ≠ [] :=
  ⟨rfl, by decide⟩

/-! ## Claims about the frame-rate evaluation -/

/-- The probe output that exposes the `eval` call: `r_frame_rate` carries an
arithmetic expression that is not of the `"<int>/<int>"` form. -/
def evalCexStream : Dict :=
  [("codec_type", .vstr "video"), ("width", .vint 1920), ("height", .vint 1080),
   ("r_frame_rate", .vstr "8+8"), ("codec_name", .vstr "h264")]

def evalCexProbe : ProbeOutput := ⟨[evalCexStream], [("duration", .vstr "2.0")]⟩

/-- C1 (code behaviour at the failing input): the frame-rate string `"8+8"`
is not a `"<int>/<int>"` ratio, so the spec's strict parser fails closed —
but the code's `eval` happily computes `16` and stores it as the fps, and
on the well-formed `"30/1"` it likewise goes through general evaluation
rather than a dedicated parser. -/
theorem frame_rate_eval_not_strict_parse :
    mdGet (extract_video_metadata (.ok evalCexProbe)) "fps" = some (.mrat 16) ∧
    spec_parse_frame_rate "8+8" = none ∧
    evalFrameRate (.vstr "8+8") = some 16 ∧
    evalFrameRate (.vstr "30/1") = some 30 := by
  refine ⟨by with_unfolding_all rfl, by with_unfolding_all rfl,
    by with_unfolding_all rfl, by with_unfolding_all rfl⟩

/-! ## Path-traversal analysis of the stored name (for C6) -/

theorem lastIdxOf_none_not_mem (c : Char) (l : List Char)
    (h : lastIdxOf c l = none) : c ∉ l := by
  induction l with
  | nil => simp
  | cons a t ih =>
    simp only [lastIdxOf] at h
    cases ht : lastIdxOf c t with
    | some i => rw [ht] at h; exact absurd h (by simp)
    | none =>
      rw [ht] at h
      by_cases hac : a = c
      · rw [if_pos hac] at h; exact absurd h (by simp)
      · rw [if_neg hac] at h
        simp only [List.mem_cons, not_or]
        exact ⟨fun hca => hac hca.symm, ih ht⟩

theorem lastIdxOf_not_mem_drop (c : Char) (l : List Char) (i : Nat)
    (h : lastIdxOf c l = some i) : c ∉ l.drop (i + 1) := by
  induction l generalizing i with
  | nil => simp [lastIdxOf] at h
  | cons a t ih =>
    simp only [lastIdxOf] at h
    cases ht : lastIdxOf c t with
    | some j =>
      rw [ht] at h
      have hij : i = j + 1 := (Option.some.inj h).symm
      subst hij
      simpa using ih j ht
    | none =>
      rw [ht] at h
      by_cases hac : a = c
      · rw [if_pos hac] at h
        have hij : i = 0 := (Option.some.inj h).symm
        subst hij
        simpa using lastIdxOf_none_not_mem c t ht
      · rw [if_neg hac] at h; exact absurd h (by simp)

/-- The extension `os.path.splitext` extracts never contains a path
separator: it starts strictly after the last slash of the input. -/
theorem slash_not_mem_splitextExtL (l : List Char) : '/' ∉ splitextExtL l := by
  unfold splitextExtL
  cases hd : lastIdxOf '.' l with
  | none => simp
  | some d =>
    cases hs : lastIdxOf '/' l with
    | none =>
      have hnm : '/' ∉ l := lastIdxOf_none_not_mem _ _ hs
      dsimp only
      split_ifs with h1 h2
      · exact fun hmem => hnm (List.mem_of_mem_drop hmem)
      · simp
      · simp
    | some k =>
      dsimp only
      split_ifs with h1 h2
      · intro hmem
        have hdd : (l.drop (k + 1)).drop (d - (k + 1)) = l.drop d := by
          rw [List.drop_drop]
          congr 1
          omega
        rw [← hdd] at hmem
        exact lastIdxOf_not_mem_drop '/' l k hs (List.mem_of_mem_drop hmem)
      · simp
      · simp

theorem slash_not_mem_pyExt (f : String) : '/' ∉ (pyExt f).data :=
  slash_not_mem_splitextExtL f.data

theorem char_ofNat_toNat_of_lt (n : Nat) (h : n < 0xd800) :
    (Char.ofNat n).toNat = n := by
  have hv : n.isValidChar := Or.inl h
  unfold Char.ofNat
  rw [dif_pos hv]
  rfl

/-- `Char.toLower` maps nothing onto `'/'` except `'/'` itself (upper-case
letters land in `'a'`-`'z'`). -/
theorem toLower_eq_slash (c : Char) (h : Char.toLower c = '/') : c = '/' := by
  simp only [Char.toLower] at h
  split_ifs at h with hc
  · exfalso
    have h1 : (Char.ofNat (c.toNat + 32)).toNat = ('/' : Char).toNat := by rw [h]
    have h2 : (Char.ofNat (c.toNat + 32)).toNat = c.toNat + 32 :=
      char_ofNat_toNat_of_lt _ (by omega)
    have h3 : ('/' : Char).toNat = 47 := rfl
    omega
  · exact h

/-- The lower-cased extension still contains no path separator. -/
theorem slash_not_mem_pyLowerExt (f : String) :
    '/' ∉ (pyLower (pyExt f)).data := by
  simp only [pyLower]
  intro hmem
  obtain ⟨c, hc, hcl⟩ := List.mem_map.mp hmem
  exact slash_not_mem_pyExt f (toLower_eq_slash c hcl ▸ hc)

/-- C6: for every validated upload, the name stored on disk is exactly the
fresh token followed by the validated (lower-cased) extension, joined under
the configured root; the extension can never smuggle in a path separator,
and the stored name depends on the caller's filename only through that
extension. -/
theorem stored_name_is_token_and_ext (fs : FS) (file : UploadFileArg)
    (tok : String) (env : MediaEnv) (content : List Nat)
    (hv : validate_file file.size file.filename = .ok ())
    (hs : file.stream = .whole content) :
    (∃ ty md, upload_file_to_storage fs file tok env =
        (.ok (posixJoin UPLOAD_DIR (unique_filename tok file.filename), ty, md),
         ⟨fs.uploads ++ [(unique_filename tok file.filename, content)]⟩)) ∧
    unique_filename tok file.filename = tok ++ pyLower (pyExt file.filename) ∧
    ('/' : Char) ∉ (pyLower (pyExt file.filename)).data ∧
    (∀ g : String, pyExt g = pyExt file.filename →
      unique_filename tok g = unique_filename tok file.filename) := by
  obtain ⟨ty, hty⟩ := validate_ok_classify _ _ hv
  refine ⟨⟨ty, ?_⟩, rfl, slash_not_mem_pyLowerExt _,
    fun g hg => by simp [unique_filename, hg]⟩
  unfold upload_file_to_storage
  rw [hv, hs, hty]
  exact ⟨_, rfl⟩

/-- C6 witness: a filename carrying a directory component and upper-case
extension is stored as token plus lower-cased extension only. -/
theorem stored_name_is_token_and_ext_witness :
    (∃ ty md, upload_file_to_storage ⟨[]⟩ ⟨"dir/Evil.MP4", 5, .whole [1, 2]⟩ "t" envAllFail =
        (.ok (posixJoin UPLOAD_DIR (unique_filename "t" "dir/Evil.MP4"), ty, md),
         ⟨[(unique_filename "t" "dir/Evil.MP4", [1, 2])]⟩)) ∧
    unique_filename "t" "dir/Evil.MP4" = "t" ++ pyLower (pyExt "dir/Evil.MP4") ∧
    ('/' : Char) ∉ (pyLower (pyExt "dir/Evil.MP4")).data ∧
    (∀ g : String, pyExt g = pyExt "dir/Evil.MP4" →
      unique_filename "t" g = unique_filename "t" "dir/Evil.MP4") := by
  have h := stored_name_is_token_and_ext ⟨[]⟩ ⟨"dir/Evil.MP4", 5, .whole [1, 2]⟩
    "t" envAllFail [1, 2] rfl rfl
  simpa using h

/-- C3: once validation and the byte copy succeed, a failing probe, failing
image decode and failing thumbnail run never surface an error: the pipeline
still returns a success record, with empty metadata and no thumbnail. -/
theorem corrupt_media_ingest_succeeds (fs : FS) (file : UploadFileArg)
    (tok ttok : String) (env : MediaEnv) (content : List Nat)
    (hv : validate_file file.size file.filename = .ok ())
    (hs : file.stream = .whole content)
    (hp : env.probe = .error ())
    (hi : env.image = .error ())
    (hf : env.ffmpegRun = false) :
    ∃ ty, upload_media_file fs file tok ttok env =
      (.ok ⟨posixJoin UPLOAD_DIR (unique_filename tok file.filename), ty, [], none⟩,
       ⟨fs.uploads ++ [(unique_filename tok file.filename, content)]⟩) := by
  obtain ⟨ty, hty⟩ := validate_ok_classify _ _ hv
  refine ⟨ty, ?_⟩
  unfold upload_media_file upload_file_to_storage
  rw [hv, hs, hty]
  rcases classify_ok_cases _ _ hty with h | h | h <;> subst h <;>
    simp [extract_video_metadata, extract_video_metadata_try,
      extract_audio_metadata, extract_audio_metadata_try,
      extract_image_metadata, generate_thumbnail, hp, hi, hf]

/-- C3 witness: a `.mp4` whose bytes defeat both the probe and the
thumbnailer is ingested successfully with empty metadata, no thumbnail. -/
theorem corrupt_media_ingest_succeeds_witness :
    ∃ ty, upload_media_file ⟨[]⟩ ⟨"clip.mp4", 10, .whole [9, 9]⟩ "t" "u" envAllFail =
      (.ok ⟨posixJoin UPLOAD_DIR (unique_filename "t" "clip.mp4"), ty, [], none⟩,
       ⟨[(unique_filename "t" "clip.mp4", [9, 9])]⟩) := by
  have h := corrupt_media_ingest_succeeds ⟨[]⟩ ⟨"clip.mp4", 10, .whole [9, 9]⟩
    "t" "u" envAllFail [9, 9] rfl rfl rfl rfl rfl
  simpa using h

/-! ## Per-field parse failures (C4) -/

/-- C4 (amended): inside `extract_video_metadata` and
`extract_audio_metadata` a single numeric field that fails to parse makes
the one `try` block raise, so the whole metadata object degrades to empty —
the other fields are dropped with it (non-fatal to ingestion, but not the
per-field absence the claim describes). -/
theorem numeric_parse_failure_empties_metadata :
    (∀ (streams : List Dict) (fmt : Dict) (vs : Dict),
      findStream "video" streams = .ok (some vs) →
      (pyToInt (dictGet vs "width" (.vint 0)) = none ∨
       pyToInt (dictGet vs "height" (.vint 0)) = none ∨
       pyToFloat (dictGet fmt "duration" (.vint 0)) = none ∨
       evalFrameRate (dictGet vs "r_frame_rate" (.vstr "30/1")) = none) →
      extract_video_metadata (.ok ⟨streams, fmt⟩) = []) ∧
    (∀ (streams : List Dict) (fmt : Dict) (as_ : Dict),
      findStream "audio" streams = .ok (some as_) →
      (pyToFloat (dictGet fmt "duration" (.vint 0)) = none ∨
       pyToInt (dictGet as_ "sample_rate" (.vint 0)) = none ∨
       pyToInt (dictGet as_ "channels" (.vint 0)) = none) →
      extract_audio_metadata (.ok ⟨streams, fmt⟩) = []) := by
  constructor
  · intro streams fmt vs hfind h
    have hbody : extract_video_metadata_try (.ok ⟨streams, fmt⟩) = none := by
      unfold extract_video_metadata_try
      dsimp only
      rw [hfind]
      rcases h with h | h | h | h
      · simp [h]
      · cases hw : pyToInt (dictGet vs "width" (.vint 0)) <;> simp [hw, h]
      · cases hw : pyToInt (dictGet vs "width" (.vint 0)) <;>
          cases hh : pyToInt (dictGet vs "height" (.vint 0)) <;> simp [hw, hh, h]
      · cases hw : pyToInt (dictGet vs "width" (.vint 0)) <;>
          cases hh : pyToInt (dictGet vs "height" (.vint 0)) <;>
          cases hd : pyToFloat (dictGet fmt "duration" (.vint 0)) <;>
          simp [hw, hh, hd, h]
    simp [extract_video_metadata, hbody]
  · intro streams fmt as_ hfind h
    have hbody : extract_audio_metadata_try (.ok ⟨streams, fmt⟩) = none := by
      unfold extract_audio_metadata_try
      dsimp only
      rw [hfind]
      rcases h with h | h | h
      · simp [h]
      · cases hd : pyToFloat (dictGet fmt "duration" (.vint 0)) <;> simp [hd, h]
      · cases hd : pyToFloat (dictGet fmt "duration" (.vint 0)) <;>
          cases hsr : pyToInt (dictGet as_ "sample_rate" (.vint 0)) <;>
          simp [hd, hsr, h]
    simp [extract_audio_metadata, hbody]

/-- A video stream whose `width` is an unparsable string while every other
field is healthy. -/
def badWidthStream : Dict :=
  [("codec_type", .vstr "video"), ("width", .vstr "abc"), ("height", .vint 720),
   ("r_frame_rate", .vstr "30/1"), ("codec_name", .vstr "h264")]

def badWidthProbe : ProbeOutput := ⟨[badWidthStream], [("duration", .vint 0)]⟩

/-- An audio stream whose `sample_rate` is unparsable while `channels` and
`duration` are healthy. -/
def badRateStream : Dict :=
  [("codec_type", .vstr "audio"), ("sample_rate", .vstr "44k"),
   ("channels", .vint 2), ("codec_name", .vstr "aac")]

def badRateProbe : ProbeOutput := ⟨[badRateStream], [("duration", .vint 0)]⟩

/-- C4 counterexample: with an unparsable `width` the probe's perfectly
parsable `height` (720) is not returned either — the whole metadata object
comes back empty, so the failing field is not "treated as absent while the
remaining fields are still returned". -/
theorem numeric_parse_failure_cex :
    extract_video_metadata (.ok badWidthProbe) = [] ∧
    mdGet (extract_video_metadata (.ok badWidthProbe)) "height" = none ∧
    pyToInt (dictGet badWidthStream "height" (.vint 0)) = some 720 ∧
    pyToInt (dictGet badWidthStream "width" (.vint 0)) = none := by
  refine ⟨by with_unfolding_all rfl, by with_unfolding_all rfl,
    by with_unfolding_all rfl, by with_unfolding_all rfl⟩

/-- C4 witness: the amended statement applied at the two bad probes. -/
theorem numeric_parse_failure_empties_metadata_witness :
    extract_video_metadata (.ok badWidthProbe) = [] ∧
    extract_audio_metadata (.ok badRateProbe) = [] :=
  ⟨numeric_parse_failure_empties_metadata.1 [badWidthStream] [("duration", .vint 0)]
      badWidthStream (by with_unfolding_all rfl) (Or.inl (by with_unfolding_all rfl)),
   numeric_parse_failure_empties_metadata.2 [badRateStream] [("duration", .vint 0)]
      badRateStream (by with_unfolding_all rfl)
      (Or.inr (Or.inl (by with_unfolding_all rfl)))⟩

/-! ## Thumbnail dimension bounds (C5) -/

theorem pil_round_aspect_ge_one (q : ℚ) (key : ℤ → ℚ) :
    1 ≤ pil_round_aspect q key :=
  le_max_right _ _

theorem pil_round_aspect_le (q : ℚ) (key : ℤ → ℚ) (m : ℕ) (hm : 1 ≤ m)
    (h : q ≤ (m : ℚ)) : pil_round_aspect q key ≤ (m : ℤ) := by
  unfold pil_round_aspect
  have hc : ⌈q⌉ ≤ (m : ℤ) := Int.ceil_le.mpr (by exact_mod_cast h)
  have hf : ⌊q⌋ ≤ (m : ℤ) := le_trans (Int.floor_le_ceil q) hc
  have h1 : (1 : ℤ) ≤ (m : ℤ) := by exact_mod_cast hm
  rcases le_or_lt (key ⌊q⌋) (key ⌈q⌉) with hk | hk
  · rw [if_pos hk]; exact max_le hf h1
  · rw [if_neg (not_le.mpr hk)]; exact max_le hc h1

theorem pil_round_aspect_close (q : ℚ) (key : ℤ → ℚ) (hq : 0 ≤ q) :
    |((pil_round_aspect q key : ℤ) : ℚ) - q| ≤ 1 := by
  unfold pil_round_aspect
  have hfu : ((⌊q⌋ : ℤ) : ℚ) ≤ q := Int.floor_le q
  have hfl : q - 1 < ((⌊q⌋ : ℤ) : ℚ) := by
    have := Int.lt_floor_add_one q
    linarith
  have hcl : q ≤ ((⌈q⌉ : ℤ) : ℚ) := Int.le_ceil q
  have hcu : ((⌈q⌉ : ℤ) : ℚ) < q + 1 := Int.ceil_lt_add_one q
  rcases le_or_lt (key ⌊q⌋) (key ⌈q⌉) with hk | hk
  · rw [if_pos hk]
    rcases le_or_lt ⌊q⌋ 1 with h1 | h1
    · rw [max_eq_right h1]
      have : ((⌊q⌋ : ℤ) : ℚ) ≤ 1 := by exact_mod_cast h1
      rw [abs_le]
      constructor <;> push_cast <;> linarith
    · rw [max_eq_left (le_of_lt h1)]
      rw [abs_le]
      constructor <;> linarith
  · rw [if_neg (not_le.mpr hk)]
    rcases le_or_lt ⌈q⌉ 1 with h1 | h1
    · rw [max_eq_right h1]
      have : q ≤ ((⌈q⌉ : ℤ) : ℚ) := hcl
      have hle1 : ((⌈q⌉ : ℤ) : ℚ) ≤ 1 := by exact_mod_cast h1
      rw [abs_le]
      constructor <;> push_cast <;> linarith
    · rw [max_eq_left (le_of_lt h1)]
      rw [abs_le]
      constructor <;> linarith

/-- C5 (amended): image thumbnails fit within the 320×240 box, are left
unchanged when the source already fits, and otherwise shrink
aspect-preservingly (the bound side is exact and the other side is within
one pixel of the exact aspect-preserving value); video thumbnails, by
contrast, are always written at exactly 320×240 whatever the source
dimensions. -/
theorem thumbnail_dims_amended (w h : Nat) (hw : 0 < w) (hh : 0 < h) :
    video_thumb_dims = (320, 240) ∧
    (image_thumb_dims w h).1 ≤ 320 ∧ (image_thumb_dims w h).2 ≤ 240 ∧
    (w ≤ 320 → h ≤ 240 → image_thumb_dims w h = (w, h)) ∧
    (image_thumb_dims w h = (w, h) ∨
      ((image_thumb_dims w h).2 = 240 ∧
        |((image_thumb_dims w h).1 : ℚ) - 240 * ((w : ℚ) / (h : ℚ))| ≤ 1) ∨
      ((image_thumb_dims w h).1 = 320 ∧
        |((image_thumb_dims w h).2 : ℚ) - 320 * ((h : ℚ) / (w : ℚ))| ≤ 1)) := by
  have h0w : (0 : ℚ) < (w : ℚ) := by exact_mod_cast hw
  have h0h : (0 : ℚ) < (h : ℚ) := by exact_mod_cast hh
  refine ⟨rfl, ?_⟩
  unfold image_thumb_dims pil_thumbnail
  by_cases hfit : 320 ≥ w ∧ 240 ≥ h
  · rw [if_pos hfit]
    exact ⟨hfit.1, hfit.2, fun _ _ => rfl, Or.inl rfl⟩
  · rw [if_neg hfit]
    simp only [Nat.cast_ofNat]
    split_ifs with hbr
    · -- width-bound branch: the target is (round(240·aspect), 240)
      have hq0 : 0 ≤ (240 : ℚ) * ((w : ℚ) / (h : ℚ)) := by positivity
      have hqle : (240 : ℚ) * ((w : ℚ) / (h : ℚ)) ≤ 320 := by
        have h2 : (240 : ℚ) * ((w : ℚ) / (h : ℚ)) ≤ 240 * ((320 : ℚ) / 240) := by
          apply mul_le_mul_of_nonneg_left hbr (by norm_num)
        linarith [h2, (by norm_num : (240 : ℚ) * ((320 : ℚ) / 240) = 320)]
      have hr1 := pil_round_aspect_ge_one ((240 : ℚ) * ((w : ℚ) / (h : ℚ)))
        (fun n => |(w : ℚ) / (h : ℚ) - (n : ℚ) / (240 : ℚ)|)
      have hrle := pil_round_aspect_le ((240 : ℚ) * ((w : ℚ) / (h : ℚ)))
        (fun n => |(w : ℚ) / (h : ℚ) - (n : ℚ) / (240 : ℚ)|) 320 (by norm_num) hqle
      have hclose := pil_round_aspect_close ((240 : ℚ) * ((w : ℚ) / (h : ℚ)))
        (fun n => |(w : ℚ) / (h : ℚ) - (n : ℚ) / (240 : ℚ)|) hq0
      refine ⟨?_, le_refl _, fun hw' hh' => absurd ⟨hw', hh'⟩ hfit,
        Or.inr (Or.inl ⟨rfl, ?_⟩)⟩
      · exact Int.toNat_le.mpr hrle
      · have hcast :
            (((pil_round_aspect ((240 : ℚ) * ((w : ℚ) / (h : ℚ)))
              (fun n => |(w : ℚ) / (h : ℚ) - (n : ℚ) / (240 : ℚ)|)).toNat : ℕ) : ℚ) =
            ((pil_round_aspect ((240 : ℚ) * ((w : ℚ) / (h : ℚ)))
              (fun n => |(w : ℚ) / (h : ℚ) - (n : ℚ) / (240 : ℚ)|) : ℤ) : ℚ) := by
          rw [← Int.cast_natCast,
            Int.toNat_of_nonneg (le_trans zero_le_one hr1)]
        rw [hcast]
        exact hclose
    · -- height-bound branch: the target is (320, round(320/aspect))
      have haspos : (0 : ℚ) < (w : ℚ) / (h : ℚ) := by positivity
      have h1 : (320 : ℚ) / 240 < (w : ℚ) / (h : ℚ) := lt_of_not_ge hbr
      have hq0 : 0 ≤ (320 : ℚ) / ((w : ℚ) / (h : ℚ)) := by positivity
      have hqle : (320 : ℚ) / ((w : ℚ) / (h : ℚ)) ≤ 240 := by
        rw [div_le_iff haspos]
        have h2 : (240 : ℚ) * ((320 : ℚ) / 240) < 240 * ((w : ℚ) / (h : ℚ)) :=
          mul_lt_mul_of_pos_left h1 (by norm_num)
        linarith [h2, (by norm_num : (240 : ℚ) * ((320 : ℚ) / 240) = 320)]
      have hr1 := pil_round_aspect_ge_one ((320 : ℚ) / ((w : ℚ) / (h : ℚ)))
        (fun n => if n = 0 then 0 else |(w : ℚ) / (h : ℚ) - (320 : ℚ) / (n : ℚ)|)
      have hrle := pil_round_aspect_le ((320 : ℚ) / ((w : ℚ) / (h : ℚ)))
        (fun n => if n = 0 then 0 else |(w : ℚ) / (h : ℚ) - (320 : ℚ) / (n : ℚ)|)
        240 (by norm_num) hqle
      have hclose := pil_round_aspect_close ((320 : ℚ) / ((w : ℚ) / (h : ℚ)))
        (fun n => if n = 0 then 0 else |(w : ℚ) / (h : ℚ) - (320 : ℚ) / (n : ℚ)|) hq0
      refine ⟨le_refl _, ?_, fun hw' hh' => absurd ⟨hw', hh'⟩ hfit,
        Or.inr (Or.inr ⟨rfl, ?_⟩)⟩
      · exact Int.toNat_le.mpr hrle
      · have hqeq : (320 : ℚ) / ((w : ℚ) / (h : ℚ)) = 320 * ((h : ℚ) / (w : ℚ)) := by
          rw [div_div_eq_mul_div, mul_div_assoc]
        have hcast :
            (((pil_round_aspect ((320 : ℚ) / ((w : ℚ) / (h : ℚ)))
              (fun n => if n = 0 then 0 else |(w : ℚ) / (h : ℚ) - (320 : ℚ) / (n : ℚ)|)).toNat : ℕ) : ℚ) =
            ((pil_round_aspect ((320 : ℚ) / ((w : ℚ) / (h : ℚ)))
              (fun n => if n = 0 then 0 else |(w : ℚ) / (h : ℚ) - (320 : ℚ) / (n : ℚ)|) : ℤ) : ℚ) := by
          rw [← Int.cast_natCast,
            Int.toNat_of_nonneg (le_trans zero_le_one hr1)]
        rw [hcast, ← hqeq]
        exact hclose

/-- A probe reporting a square 640×640 video stream. -/
def squareProbe : ProbeOutput :=
  ⟨[[("codec_type", .vstr "video"), ("width", .vint 640), ("height", .vint 640),
     ("r_frame_rate", .vstr "30/1"), ("codec_name", .vstr "h264")]],
   [("duration", .vint 1)]⟩

/-- An environment in which the probe sees the square video and the ffmpeg
thumbnail run completes. -/
def squareEnv : MediaEnv := ⟨.ok squareProbe, .error (), true, true⟩

/-- C5 counterexample: the source is probed as 640×640, yet the video
thumbnail is written at exactly 320×240 — an aspect ratio of 4:3 instead of
the source's 1:1, so the frame is stretched rather than fit within the box
aspect-preservingly. -/
theorem video_thumbnail_stretched_cex :
    generate_thumbnail "video" "t" squareEnv =
      some (posixJoin THUMBNAIL_DIR "t.jpg", 320, 240) ∧
    mdGet (extract_video_metadata squareEnv.probe) "width" = some (.mint 640) ∧
    mdGet (extract_video_metadata squareEnv.probe) "height" = some (.mint 640) ∧
    ¬ (320 * 640 = 240 * 640) := by
  refine ⟨by with_unfolding_all rfl, by with_unfolding_all rfl,
    by with_unfolding_all rfl, by decide⟩

/-- C5 witness: the amended statement applied at a concrete 640×480
source. -/
theorem thumbnail_dims_amended_witness :
    video_thumb_dims = (320, 240) ∧
    (image_thumb_dims 640 480).1 ≤ 320 ∧ (image_thumb_dims 640 480).2 ≤ 240 ∧
    ((640 : ℕ) ≤ 320 → (480 : ℕ) ≤ 240 → image_thumb_dims 640 480 = (640, 480)) ∧
    (image_thumb_dims 640 480 = (640, 480) ∨
      ((image_thumb_dims 640 480).2 = 240 ∧
        |((image_thumb_dims 640 480).1 : ℚ) - 240 * ((640 : ℚ) / (480 : ℚ))| ≤ 1) ∨
      ((image_thumb_dims 640 480).1 = 320 ∧
        |((image_thumb_dims 640 480).2 : ℚ) - 320 * ((480 : ℚ) / (640 : ℚ))| ≤ 1)) := by
  have h := thumbnail_dims_amended 640 480 (by decide) (by decide)
  simpa using h

end Aivid
